import Mathlib

/-!
Shallow embedding of the document-classification pipeline of the
`docu_sec_final` repository, together with proofs about its spec claims.

The embedded code lives in `backend/app/routers/documents.py` (pipeline,
retry endpoints), `backend/app/main.py` (stale-document recovery sweep),
`backend/ml/classifier.py` (text extraction / chunking / chunk
aggregation) and `backend/ml/vertex_ai_classifier.py` (Gemini client:
retry loop and response parsing).

Conventions of the embedding:
* Python strings are Lean `String`s; `str.strip()` truthiness is the
  `isBlank` predicate (all characters whitespace), `"\n".join` is `joinNL`.
* Database rows are the `Doc` structure; a SQL `UPDATE ... WHERE id = ...`
  is a function `Doc → Doc`, and the conditional (CAS) updates test their
  `WHERE` clause explicitly.  Timestamps (`func.now()`) are `Nat` values
  passed in as parameters.
* Exceptions are the `Exc` structure (Python type name + message);
  fallible code returns `Except Exc α`.
* The outcomes of external calls (Gemini API, PyMuPDF page extraction)
  are inputs to the embedded functions, so one run of the pipeline is a
  pure function of the document row and those outcomes.
-/

/-! ## Data model (`backend/app/models.py`) -/

/-- `ClassificationStatus` enum from `models.py`. -/
inductive ClassificationStatus where
  | queued
  | extracting_text
  | classifying
  | completed
  | failed
deriving DecidableEq, Repr

/-- `ClassificationLevel` enum from `models.py`. -/
inductive ClassificationLevel where
  | public
  | internal
  | confidential
  | unclassified
deriving DecidableEq, Repr

/-- `ClassificationLevel(value)` constructor lookup: `none` models the
`ValueError` Python raises for a string outside the enum. -/
def classificationLevelOfString : String → Option ClassificationLevel
  | "public" => some .public
  | "internal" => some .internal
  | "confidential" => some .confidential
  | "unclassified" => some .unclassified
  | _ => none

/-- The classification fields of a `Document` row that the pipeline
mutates (`models.py` / spec §3). -/
structure Doc where
  status : ClassificationStatus
  classification : ClassificationLevel
  classification_error : Option String
  classification_queued_at : Option Nat
  upload_date : Nat
deriving DecidableEq, Repr

/-- A Python exception, identified by `type(exc).__name__` and `str(exc)`. -/
structure Exc where
  name : String
  msg : String
deriving DecidableEq, Repr

/-! ## String helpers modelling Python `str` operations -/

/-- Truthiness of `s.strip()` in Python: blank iff every character is
whitespace (in particular the empty string is blank). -/
def isBlank (s : String) : Bool :=
  s.data.all Char.isWhitespace

/-- Python `"\n".join(parts)`. -/
def joinNL : List String → String
  | [] => ""
  | [s] => s
  | s :: rest => s ++ "\n" ++ joinNL rest

/-- Python `s.strip()` (leading/trailing whitespace removed), computed
on the character list so it is kernel-reducible. -/
def pyStrip (s : String) : String :=
  String.mk (((s.data.dropWhile Char.isWhitespace).reverse.dropWhile
    Char.isWhitespace).reverse)

/-- Python `s.split("\n", 1)[-1]`: everything after the first newline,
or the whole string when there is no newline. -/
def pySplitOnceTail (s : String) : String :=
  match s.data.dropWhile (fun c => c ≠ '\n') with
  | [] => s
  | _ :: rest => String.mk rest

/-- Python `s.find(c)` for a single character, as an `Option` index. -/
def pyFind (s : String) (c : Char) : Option Nat :=
  s.data.findIdx? (fun x => x = c)

/-- Python `s.rfind(c)` for a single character, as an `Option` index. -/
def pyRFind (s : String) (c : Char) : Option Nat :=
  (s.data.reverse.findIdx? (fun x => x = c)).map (fun i => s.data.length - 1 - i)

/-- Python slice `s[a:b]`. -/
def pySlice (s : String) (a b : Nat) : String :=
  String.mk ((s.data.drop a).take (b - a))

/-- Python `s.lower()` (ASCII case fold suffices for these claims),
computed on the character list so it is kernel-reducible. -/
def pyLower (s : String) : String :=
  String.mk (s.data.map (fun c =>
    if 'A' ≤ c ∧ c ≤ 'Z' then Char.ofNat (c.toNat + 32) else c))

/-- Python `s.startswith(pre)`. -/
def pyStartsWith (s pre : String) : Bool :=
  pre.data.isPrefixOf s.data

/-- Python `s.endswith(suf)`. -/
def pyEndsWith (s suf : String) : Bool :=
  suf.data.isSuffixOf s.data

/-- Python `s[:-n]` (drop the last `n` characters). -/
def pyDropRight (s : String) (n : Nat) : String :=
  String.mk (s.data.take (s.data.length - n))

/-! ## Error sanitization (`documents.py`, `_sanitize_classification_error`) -/

/-- `_sanitize_classification_error` from `documents.py`: maps
`type(exc).__name__` through `SAFE_ERROR_MAP`, with an f-string default. -/
def _sanitize_classification_error (e : Exc) : String :=
  if e.name = "Unauthenticated" then "Authentication error — contact your administrator."
  else if e.name = "PermissionDenied" then "Service account lacks required permissions — contact admin."
  else if e.name = "ResourceExhausted" then "Classification service temporarily busy — retry later."
  else if e.name = "InvalidArgument" then "Document could not be processed by the classification service."
  else if e.name = "DeadlineExceeded" then "Classification timed out — retry later."
  else if e.name = "ServiceUnavailable" then "Classification service temporarily unavailable — retry later."
  else if e.name = "InternalServerError" then "Classification service encountered an internal error — retry later."
  else if e.name = "ValueError" then e.msg.take 500
  else if e.name = "RuntimeError" then "Classification configuration error — contact your administrator."
  else "Classification failed (" ++ e.name ++ "). Contact admin if this persists."

/-! ## The pipeline (`documents.py`, `classify_document_pipeline`) -/

/-- `_update_status` from `documents.py`: writes only
`classification_status` and `classification_error` (in particular it does
NOT touch `classification_queued_at`). -/
def update_status (d : Doc) (st : ClassificationStatus) (err : Option String) : Doc :=
  { d with status := st, classification_error := err }

/-- Result of `extract_document_text_async`: a single text blob or a list
of chunk texts. -/
inductive Extracted where
  | text (s : String)
  | chunks (l : List String)
deriving DecidableEq, Repr

/-- Python truthiness test `if not text_or_chunks:` on the extraction
result: falsy iff empty string / empty list. -/
def Extracted.isFalsy : Extracted → Bool
  | .text s => s = ""
  | .chunks l => l = []

/-- Outcome of an awaited external call inside the pipeline: normal
return, a raised exception, or `asyncio.CancelledError`. -/
inductive CallOutcome (α : Type) where
  | ok (a : α)
  | raises (e : Exc)
  | cancelled
deriving DecidableEq, Repr

/-- The low-confidence note written on completion with label
`unclassified` (`documents.py` stage 3). -/
def lowConfidenceNote : String :=
  "Low confidence — Gemini could not determine a classification. Manual review recommended."

/-- The shutdown message written by the `asyncio.CancelledError` handler. -/
def shutdownMsg : String := "Classification interrupted (server shutdown)"

/-- Result of one pipeline invocation: final row, the sequence of row
states (initial state followed by the state after each status write),
whether the entry CAS succeeded, and which external stages were called. -/
structure PipelineResult where
  final : Doc
  states : List Doc
  casPassed : Bool
  extractCalled : Bool
  classifyCalled : Bool
deriving Repr

/-- `classify_document_pipeline` from `documents.py`, as a function of the
document row, the timestamps `func.now()` would yield at the entry CAS
(`tCas`) and at the `classifying` write (`tClassify`), and the outcomes of
the two external calls.  The entry CAS is the conditional update
`WHERE id = ... AND classification_status = 'queued'`; a rowcount of 0
returns immediately.  Note the `classifying` write goes through
`_update_status`, which never writes `classification_queued_at`, so
`tClassify` is unused by the code. -/
def classify_document_pipeline (d : Doc) (tCas _tClassify : Nat)
    (extractO : CallOutcome Extracted) (classifyO : CallOutcome String) :
    PipelineResult :=
  if d.status ≠ ClassificationStatus.queued then
    -- CAS rowcount == 0: "already past 'queued', skipping"
    ⟨d, [d], false, false, false⟩
  else
    let d1 : Doc := { d with status := .extracting_text,
                             classification_error := none,
                             classification_queued_at := some tCas }
    match extractO with
    | .cancelled =>
        let d2 := update_status d1 .failed (some shutdownMsg)
        ⟨d2, [d, d1, d2], true, true, false⟩
    | .raises e =>
        let d2 := update_status d1 .failed (some (_sanitize_classification_error e))
        ⟨d2, [d, d1, d2], true, true, false⟩
    | .ok ext =>
      if ext.isFalsy then
        let d2 := update_status d1 .failed (some "No text could be extracted from the document")
        ⟨d2, [d, d1, d2], true, true, false⟩
      else
        let d2 := update_status d1 .classifying none
        match classifyO with
        | .cancelled =>
            let d3 := update_status d2 .failed (some shutdownMsg)
            ⟨d3, [d, d1, d2, d3], true, true, true⟩
        | .raises e =>
            let d3 := update_status d2 .failed (some (_sanitize_classification_error e))
            ⟨d3, [d, d1, d2, d3], true, true, true⟩
        | .ok labelStr =>
          match classificationLevelOfString labelStr with
          | none =>
              -- `ClassificationLevel(classification_str)` raises ValueError,
              -- caught by the generic handler and sanitized
              let ve : Exc := ⟨"ValueError",
                "'" ++ labelStr ++ "' is not a valid ClassificationLevel"⟩
              let d3 := update_status d2 .failed (some (_sanitize_classification_error ve))
              ⟨d3, [d, d1, d2, d3], true, true, true⟩
          | some lvl =>
              let d3 : Doc := { d2 with
                classification := lvl,
                status := .completed,
                classification_error :=
                  if lvl = ClassificationLevel.unclassified
                  then some lowConfidenceNote else none }
              ⟨d3, [d, d1, d2, d3], true, true, true⟩

/-! ## Retry endpoint (`documents.py`, `retry_document_classification`) -/

/-- `retry_document_classification` (single-document retry).  Ownership
and existence checks are external concerns; the embedded part is the
status guard and the CAS `failed → queued`.  Returns the HTTP error code
on rejection. -/
def retry_document_classification (d : Doc) : Except Nat Doc :=
  if d.status ≠ ClassificationStatus.failed then
    .error 400
  else
    -- CAS failed → queued, clearing the error
    .ok { d with status := .queued, classification_error := none }

/-! ## Recovery sweep (`main.py` lifespan, stale-document recovery) -/

/-- `classification_queued_at < NOW() - INTERVAL '1 minute' * window`
(false on a `NULL` stamp, as in SQL). -/
def queuedAtOlderThan (d : Doc) (window now : Nat) : Bool :=
  match d.classification_queued_at with
  | some t => t + window < now
  | none => false

/-- The three stale-recovery `UPDATE`s from `main.py`, applied to one row
at startup time `now` (timestamps in minutes).  Active stages use a
10-minute window, `queued` a 30-minute window, and rows with a `NULL`
stamp fall back to `upload_date` with the 10-minute window. -/
def recover_stale_documents (d : Doc) (now : Nat) : Doc :=
  if (d.status = .extracting_text ∨ d.status = .classifying) ∧
      queuedAtOlderThan d 10 now then
    update_status d .failed (some "Classification interrupted (server restart). Retry to reclassify.")
  else if d.status = .queued ∧ queuedAtOlderThan d 30 now then
    update_status d .failed
      (some "Document was queued for over 30 minutes without processing. Retry to reclassify.")
  else if (d.status = .extracting_text ∨ d.status = .classifying ∨ d.status = .queued) ∧
      d.classification_queued_at = none ∧ d.upload_date + 10 < now then
    update_status d .failed (some "Classification interrupted (server restart). Retry to reclassify.")
  else d

/-- Exact decimal number `mant / 10 ^ exp`: the embedding of the decimal
literals that Python's `json.loads`/`float()` produce here (none of the
claims depends on binary floating-point rounding).  Comparisons
cross-multiply, which keeps them kernel-computable. -/
structure Dec where
  mant : Int
  exp : Nat
deriving DecidableEq, Repr

/-- `a < b` on decimals. -/
def Dec.blt (a b : Dec) : Bool :=
  a.mant * (10 : Int) ^ b.exp < b.mant * (10 : Int) ^ a.exp

/-- `a ≤ b` on decimals. -/
def Dec.ble (a b : Dec) : Bool :=
  a.mant * (10 : Int) ^ b.exp ≤ b.mant * (10 : Int) ^ a.exp

/-! ## JSON model (Python's `json.loads`, used by `parse_gemini_response`)

`json.loads` is a standard-library call; it is embedded here as an
executable recursive-descent parser into a `Json` value type
(objects keep their member list; `dict.get` takes the last duplicate key,
as Python's dict construction does).  Numbers are modelled as exact
decimals `Dec`. -/

inductive Json where
  | null
  | bool (b : Bool)
  | num (q : Dec)
  | str (s : String)
  | arr (elems : List Json)
  | obj (members : List (String × Json))

/-- JSON whitespace (the set `json.loads` skips). -/
def jsonWs (c : Char) : Bool := c = ' ' ∨ c = '\n' ∨ c = '\t' ∨ c = '\r'

def skipWs (cs : List Char) : List Char := cs.dropWhile jsonWs

def hexVal (c : Char) : Option Nat :=
  if '0' ≤ c ∧ c ≤ '9' then some (c.toNat - '0'.toNat)
  else if 'a' ≤ c ∧ c ≤ 'f' then some (c.toNat - 'a'.toNat + 10)
  else if 'A' ≤ c ∧ c ≤ 'F' then some (c.toNat - 'A'.toNat + 10)
  else none

/-- JSON string contents after the opening quote, with the usual escapes. -/
def parseJStringAux : List Char → List Char → Option (String × List Char)
  | acc, '"' :: rest => some (String.mk acc.reverse, rest)
  | acc, '\\' :: c :: rest =>
      match c with
      | '"' => parseJStringAux ('"' :: acc) rest
      | '\\' => parseJStringAux ('\\' :: acc) rest
      | '/' => parseJStringAux ('/' :: acc) rest
      | 'n' => parseJStringAux ('\n' :: acc) rest
      | 't' => parseJStringAux ('\t' :: acc) rest
      | 'r' => parseJStringAux ('\r' :: acc) rest
      | 'b' => parseJStringAux (Char.ofNat 8 :: acc) rest
      | 'f' => parseJStringAux (Char.ofNat 12 :: acc) rest
      | 'u' =>
        match rest with
        | h1 :: h2 :: h3 :: h4 :: rest2 =>
          match hexVal h1, hexVal h2, hexVal h3, hexVal h4 with
          | some a, some b, some c2, some d =>
              parseJStringAux (Char.ofNat (((a*16+b)*16+c2)*16+d) :: acc) rest2
          | _, _, _, _ => none
        | _ => none
      | _ => none
  | acc, c :: rest => parseJStringAux (c :: acc) rest
  | _, [] => none

def digitsVal (ds : List Char) : Nat :=
  ds.foldl (fun n c => n * 10 + (c.toNat - '0'.toNat)) 0

def spanDigits (cs : List Char) : List Char × List Char :=
  (cs.takeWhile Char.isDigit, cs.dropWhile Char.isDigit)

/-- Exponent suffix of a number literal: `e±ddd` scales the mantissa or
deepens the decimal exponent. -/
def parseExpPart (m : Int) (ex : Nat) (t : List Char) : Option (Int × Nat × List Char) :=
  let p := match t with
    | '-' :: u => (true, u)
    | '+' :: u => (false, u)
    | _ => (false, t)
  match spanDigits p.2 with
  | ([], _) => none
  | (ed, t2) =>
    let e := digitsVal ed
    some (if p.1 then (m, ex + e, t2) else (m * (10 : Int) ^ e, ex, t2))

/-- JSON number literal (optional sign, integer part, optional fraction
and exponent), as an exact decimal. -/
def parseJNumber (cs : List Char) : Option (Dec × List Char) :=
  let s := match cs with
    | '-' :: t => (true, t)
    | _ => (false, cs)
  match spanDigits s.2 with
  | ([], _) => none
  | (ip, cs2) =>
    let withFrac : Option (Int × Nat × List Char) :=
      match cs2 with
      | '.' :: t =>
        match spanDigits t with
        | ([], _) => none
        | (fd, t2) =>
            some (((digitsVal ip * 10 ^ fd.length + digitsVal fd : Nat) : Int),
              fd.length, t2)
      | _ => some (((digitsVal ip : Nat) : Int), 0, cs2)
    match withFrac with
    | none => none
    | some (m, ex, cs3) =>
      let withExp : Option (Int × Nat × List Char) :=
        match cs3 with
        | 'e' :: t => parseExpPart m ex t
        | 'E' :: t => parseExpPart m ex t
        | _ => some (m, ex, cs3)
      match withExp with
      | none => none
      | some (m2, ex2, cs4) => some (⟨if s.1 then -m2 else m2, ex2⟩, cs4)

/-- Parsing mode: a single value, the tail of an array, or the tail of an
object (one function so the recursion is structural on the fuel, which
keeps the parser kernel-reducible for concrete inputs). -/
inductive PMode where
  | value
  | items
  | members

inductive JOut where
  | v (j : Json)
  | items (l : List Json)
  | members (l : List (String × Json))

def parseJ : Nat → PMode → List Char → Option (JOut × List Char)
  | 0, _, _ => none
  | fuel+1, .value, cs =>
    (match skipWs cs with
     | 'n' :: 'u' :: 'l' :: 'l' :: rest => some (.v .null, rest)
     | 't' :: 'r' :: 'u' :: 'e' :: rest => some (.v (.bool true), rest)
     | 'f' :: 'a' :: 'l' :: 's' :: 'e' :: rest => some (.v (.bool false), rest)
     | '"' :: rest =>
         match parseJStringAux [] rest with
         | some (s, r) => some (.v (.str s), r)
         | none => none
     | '[' :: rest =>
         (match skipWs rest with
          | ']' :: r => some (.v (.arr []), r)
          | _ =>
            match parseJ fuel .items rest with
            | some (.items l, r) => some (.v (.arr l), r)
            | _ => none)
     | '{' :: rest =>
         (match skipWs rest with
          | '}' :: r => some (.v (.obj []), r)
          | _ =>
            match parseJ fuel .members rest with
            | some (.members l, r) => some (.v (.obj l), r)
            | _ => none)
     | other =>
         match parseJNumber other with
         | some (q, r) => some (.v (.num q), r)
         | none => none)
  | fuel+1, .items, cs =>
    (match parseJ fuel .value cs with
     | some (.v v, rest) =>
       (match skipWs rest with
        | ',' :: r =>
          (match parseJ fuel .items r with
           | some (.items l, r2) => some (.items (v :: l), r2)
           | _ => none)
        | ']' :: r => some (.items [v], r)
        | _ => none)
     | _ => none)
  | fuel+1, .members, cs =>
    (match skipWs cs with
     | '"' :: rest =>
       (match parseJStringAux [] rest with
        | some (k, rest1) =>
          (match skipWs rest1 with
           | ':' :: rest2 =>
             (match parseJ fuel .value rest2 with
              | some (.v v, rest3) =>
                (match skipWs rest3 with
                 | ',' :: r =>
                   (match parseJ fuel .members r with
                    | some (.members l, r2) => some (.members ((k, v) :: l), r2)
                    | _ => none)
                 | '}' :: r => some (.members [(k, v)], r)
                 | _ => none)
              | _ => none)
           | _ => none)
        | none => none)
     | _ => none)

/-- `json.loads`: parse one value and require only whitespace after it. -/
def json_loads (s : String) : Option Json :=
  match parseJ (2 * s.length + 16) .value s.data with
  | some (.v j, rest) => if skipWs rest = [] then some j else none
  | _ => none

/-! ## Response parsing (`vertex_ai_classifier.py`, `parse_gemini_response`) -/

/-- `VALID_LABELS` from `vertex_ai_classifier.py`. -/
def VALID_LABELS : List String := ["public", "internal", "confidential"]

/-- The default `_CONFIDENCE_THRESHOLD` (`DEFAULT_CONFIDENCE_THRESHOLD = 0.65`). -/
def defaultThreshold : Dec := ⟨65, 2⟩

/-- The cleaning prefix of `parse_gemini_response`: strip, remove a
markdown code fence if present, then (when the payload does not start
with `{`) slice from the first `{` to the last `}`. -/
def cleanResponse (response_text : String) : String :=
  let cleaned := pyStrip response_text
  let cleaned :=
    if pyStartsWith cleaned "```" then
      let c1 := pySplitOnceTail cleaned
      let c2 := if pyEndsWith c1 "```" then pyDropRight c1 3 else c1
      pyStrip c2
    else cleaned
  if ¬ pyStartsWith cleaned "\x7b" then
    match pyFind cleaned '{', pyRFind cleaned '}' with
    | some s, some e => if e > s then pySlice cleaned s (e + 1) else cleaned
    | _, _ => cleaned
  else cleaned

/-- Python `data.get(k, dflt)` on a dict built by `json.loads`
(duplicate keys: last occurrence wins). -/
def jsonGetD (kvs : List (String × Json)) (k : String) (dflt : Json) : Json :=
  match kvs.reverse.find? (fun p => p.1 = k) with
  | some p => p.2
  | none => dflt

/-- Python `float(x)` for a JSON value: numbers pass through, booleans
coerce, numeric strings are parsed (`float("0.9")` succeeds); anything
else raises (`none`). -/
def pyFloat : Json → Option Dec
  | .num q => some q
  | .bool b => some (if b then ⟨1, 0⟩ else ⟨0, 0⟩)
  | .str s =>
    (match parseJNumber (skipWs s.data) with
     | some (q, rest) => if skipWs rest = [] then some q else none
     | none => none)
  | _ => none

/-- The body of `parse_gemini_response` after `json.loads`: extract
`classification`/`confidence`/`reason` and normalize.  `Except.error`
models an uncaught Python exception escaping the function (only
`json.JSONDecodeError` — the `none` case — is caught inside). -/
def parse_core (threshold : Dec) (decoded : Option Json) : Except Exc (String × Dec) :=
  match decoded with
  | none =>
      -- json.JSONDecodeError is caught: log and return unclassified
      .ok ("unclassified", ⟨0, 0⟩)
  | some data =>
    match data with
    | .obj kvs =>
      match jsonGetD kvs "classification" (.str "") with
      | .str rawLabel =>
        let label := pyStrip (pyLower rawLabel)
        match pyFloat (jsonGetD kvs "confidence" (.num ⟨0, 0⟩)) with
        | some confidence =>
          if ¬ (VALID_LABELS.contains label) then .ok ("unclassified", ⟨0, 0⟩)
          else if Dec.blt confidence threshold then .ok ("unclassified", confidence)
          else .ok (label, confidence)
        | none =>
          match jsonGetD kvs "confidence" (.num ⟨0, 0⟩) with
          | .str _ => .error ⟨"ValueError", "could not convert string to float"⟩
          | _ => .error ⟨"TypeError", "float() argument must be a string or a real number"⟩
      | _ => .error ⟨"AttributeError", "object has no attribute 'lower'"⟩
    | _ => .error ⟨"AttributeError", "object has no attribute 'get'"⟩

/-- `parse_gemini_response` from `vertex_ai_classifier.py`: clean the
response text, `json.loads` it, then run the extraction/normalization
body. -/
def parse_gemini_response (threshold : Dec) (response_text : String) :
    Except Exc (String × Dec) :=
  parse_core threshold (json_loads (cleanResponse response_text))

/-! ## Retry loop (`vertex_ai_classifier.py`, `classify_text_with_gemini`) -/

/-- Outcome of one `model.generate_content` attempt (as observed through
the `try`/`except` arms of the retry loop). -/
inductive AttemptOutcome where
  | ok (response : String)
  | emptyResponse
  | timeout
  | resourceExhausted
  | unauthenticated (msg : String)
  | invalidArgument (msg : String)
  | apiError (msg : String)
deriving DecidableEq, Repr

/-- Observable result of one `classify_text_with_gemini` call: the value
returned or exception raised, the number of outbound API calls made, and
the list of `asyncio.sleep` durations (seconds, in order). -/
structure ClassifyRun where
  result : Except Exc (String × Dec)
  calls : Nat
  sleeps : List Nat
deriving Repr

/-- Helper: prepend one call and optional sleep onto a later run. -/
def ClassifyRun.afterAttempt (r : ClassifyRun) (sleep : Option Nat) : ClassifyRun :=
  ⟨r.result, r.calls + 1, match sleep with | some s => s :: r.sleeps | none => r.sleeps⟩

/-- The `for attempt in range(1, MAX_RETRIES + 1)` loop of
`classify_text_with_gemini`.  `outcomes` lists the outcome of each
remaining attempt, `attempt` is the 1-based attempt number, `lastError`
is the `last_error` local.  Exhausting the list models falling out of the
loop: `raise RuntimeError(f"Gemini classification failed after ...")`. -/
def classify_attempts (threshold : Dec) (maxRetries : Nat) :
    List AttemptOutcome → Nat → Option String → ClassifyRun
  | [], _, lastError =>
      ⟨.error ⟨"RuntimeError",
        "Gemini classification failed after " ++ toString maxRetries ++ " attempts: " ++
          (match lastError with | some m => m | none => "None")⟩, 0, []⟩
  | o :: rest, attempt, lastError =>
    match o with
    | .ok response =>
        -- parse_gemini_response; its uncaught exceptions propagate
        ⟨parse_gemini_response threshold response, 1, []⟩
    | .emptyResponse =>
        -- `if not response.text: continue` — no sleep, last_error untouched
        (classify_attempts threshold maxRetries rest (attempt + 1) lastError).afterAttempt none
    | .timeout =>
        -- asyncio.TimeoutError: log only, NO sleep
        (classify_attempts threshold maxRetries rest (attempt + 1)
          (some ("Timeout on attempt " ++ toString attempt))).afterAttempt none
    | .resourceExhausted =>
        -- exponential backoff: await asyncio.sleep(2 ** attempt)
        (classify_attempts threshold maxRetries rest (attempt + 1)
          (some ("Quota exceeded on attempt " ++ toString attempt))).afterAttempt
          (some (2 ^ attempt))
    | .unauthenticated m =>
        ⟨.error ⟨"RuntimeError", "Vertex AI authentication failed: " ++ m⟩, 1, []⟩
    | .invalidArgument m =>
        ⟨.error ⟨"RuntimeError", "Gemini model does not support JSON mode: " ++ m⟩, 1, []⟩
    | .apiError m =>
        -- GoogleAPIError / IOError / json.JSONDecodeError: await asyncio.sleep(1)
        (classify_attempts threshold maxRetries rest (attempt + 1)
          (some ("Retryable error on attempt " ++ toString attempt ++ ": " ++ m))).afterAttempt
          (some 1)

/-- `classify_text_with_gemini`: blank text short-circuits before any API
call; otherwise the retry loop runs for `maxRetries` attempts whose
outcomes are given by `outcomes` (one entry per attempt the loop would
perform). -/
def classify_text_with_gemini (threshold : Dec) (maxRetries : Nat) (text : String)
    (outcomes : List AttemptOutcome) : ClassifyRun :=
  if isBlank text then ⟨.ok ("unclassified", ⟨0, 0⟩), 0, []⟩
  else classify_attempts threshold maxRetries (outcomes.take maxRetries) 1 none

/-! ## Chunk aggregation (`classifier.py`, `classify_extracted_text_async`
lines 328–349) -/

/-- `SECURITY_RANK` dict with its `.get(label, 0)` access. -/
def SECURITY_RANK (label : String) : Nat :=
  if label = "confidential" then 3
  else if label = "internal" then 2
  else if label = "public" then 1
  else if label = "unclassified" then 0
  else 0

/-- The per-chunk aggregation loop of `classify_extracted_text_async`:
starting from `("unclassified", 0.0)`, a chunk result replaces the best
so far only when its label ranks strictly higher. -/
def aggregate_chunk_results (results : List (String × Dec)) : String × Dec :=
  results.foldl
    (fun best r => if SECURITY_RANK r.1 > SECURITY_RANK best.1 then r else best)
    ("unclassified", ⟨0, 0⟩)

/-- The single-text branch of `classify_extracted_text_async` (non-chunked
path): empty text returns `"unclassified"` without an API call, otherwise
the text is truncated to `maxTextChars` and classified; only the label is
returned. -/
def classify_extracted_text_single (threshold : Dec) (maxRetries maxTextChars : Nat)
    (text : String) (outcomes : List AttemptOutcome) : Except Exc String :=
  if text = "" then .ok "unclassified"
  else
    match (classify_text_with_gemini threshold maxRetries
            (text.take maxTextChars) outcomes).result with
    | .ok (label, _) => .ok label
    | .error e => .error e

/-! ## Large-PDF chunking (`classifier.py`, `extract_large_pdf_chunks`) -/

/-- Configuration: `MAX_PAGES_PER_PART` and `MAX_CHUNKS`
(defaults 500 and 10). -/
structure ChunkCfg where
  maxPagesPerPart : Nat
  maxChunks : Nat
deriving Repr

/-- Loop state of `extract_large_pdf_chunks`: the accumulated `chunks`,
the current `chunk_texts`, and `pages_in_chunk`. -/
structure ChunkState where
  chunks : List String
  chunk_texts : List String
  pages_in_chunk : Nat
deriving Repr

/-- One iteration of the page loop.  A page is `none` when
`doc[page_num].get_text()` raised (the `except` arm does `continue`,
skipping even the `pages_in_chunk` increment); a `some t` page
contributes its text when non-blank and always counts toward the chunk.
The `if len(chunks) >= MAX_CHUNKS: break` guard at the top of the loop is
modelled by leaving the state unchanged once the cap is reached (no later
iteration can change it either, which is the same as breaking). -/
def processPage (cfg : ChunkCfg) (st : ChunkState) (p : Option String) : ChunkState :=
  if st.chunks.length ≥ cfg.maxChunks then st
  else
    match p with
    | none => st
    | some t =>
      let cts := if ¬ isBlank t then st.chunk_texts ++ [t] else st.chunk_texts
      let pic := st.pages_in_chunk + 1
      if pic ≥ cfg.maxPagesPerPart then
        let txt := joinNL cts
        ⟨if ¬ isBlank txt then st.chunks ++ [txt] else st.chunks, [], 0⟩
      else
        ⟨st.chunks, cts, pic⟩

/-- The trailing `if chunk_texts and len(chunks) < MAX_CHUNKS:` flush
after the loop. -/
def finishChunks (cfg : ChunkCfg) (st : ChunkState) : List String :=
  if st.chunk_texts ≠ [] ∧ st.chunks.length < cfg.maxChunks then
    let txt := joinNL st.chunk_texts
    if ¬ isBlank txt then st.chunks ++ [txt] else st.chunks
  else st.chunks

/-- `extract_large_pdf_chunks(file_path, total_pages)`.  The PDF is
modelled as `none` when `fitz.open` raises (return `[]`) and otherwise as
the list of per-page extraction outcomes; `range(min(total_pages,
len(doc)))` is `List.take total_pages`. -/
def extract_large_pdf_chunks (cfg : ChunkCfg)
    (doc : Option (List (Option String))) (total_pages : Nat) : List String :=
  match doc with
  | none => []
  | some pages =>
      finishChunks cfg ((pages.take total_pages).foldl (processPage cfg) ⟨[], [], 0⟩)

/-- The sequential page-range grouping `[texts[0:n], texts[n:2n], ...]`:
the chunk layout the happy-path theorem compares against. -/
def pageGroups (n : Nat) (l : List String) : List (List String) :=
  if h : l = [] ∨ n = 0 then []
  else
    l.take n :: pageGroups n (l.drop n)
termination_by l.length
decreasing_by
  simp only [not_or] at h
  have hl : l.length ≠ 0 := fun hz => h.1 (List.eq_nil_of_length_eq_zero hz)
  have hn : 0 < n := Nat.pos_of_ne_zero h.2
  simp [List.length_drop]
  omega

/-! ## Specification-side definitions (for the claims) -/

/-- The status-transition table of spec §3/§4.4: the pipeline's entry CAS,
stage advance, per-stage failure, the two terminal writes, and the
recovery sweeper's direct `queued → failed` (spec §4.5).  `failed →
queued` is deliberately absent: it is reserved to the retry endpoints. -/
def allowedTransition : ClassificationStatus → ClassificationStatus → Bool
  | .queued, .extracting_text => true
  | .queued, .failed => true
  | .extracting_text, .classifying => true
  | .extracting_text, .failed => true
  | .classifying, .completed => true
  | .classifying, .failed => true
  | _, _ => false

/-- The transient attempt outcomes (the ones the retry loop continues
past): timeout, quota exhaustion, generic API/IO/parse errors, and an
empty response body. -/
def isTransientOutcome : AttemptOutcome → Bool
  | .timeout => true
  | .resourceExhausted => true
  | .apiError _ => true
  | .emptyResponse => true
  | _ => false

/-- The sleep the retry loop performs after the attempt numbered `i` with
the given outcome: `2 ^ i` seconds after quota exhaustion, 1 second after
a generic API/IO/parse error, none otherwise. -/
def sleepOf : Nat × AttemptOutcome → Option Nat
  | (i, .resourceExhausted) => some (2 ^ i)
  | (_, .apiError _) => some 1
  | _ => none

/-- Max label rank in a chunk-result list (0 when empty). -/
def maxRank (l : List (String × Dec)) : Nat :=
  l.foldr (fun r acc => max (SECURITY_RANK r.1) acc) 0

/-- Inverse of `SECURITY_RANK` on the ranked labels. -/
def labelOfRank : Nat → String
  | 3 => "confidential"
  | 2 => "internal"
  | 1 => "public"
  | _ => "unclassified"

/-- Status trace of one pipeline invocation: the initial status followed
by the status after each write. -/
def pipelineTrace (d : Doc) (t1 t2 : Nat) (eo : CallOutcome Extracted)
    (co : CallOutcome String) : List ClassificationStatus :=
  (classify_document_pipeline d t1 t2 eo co).states.map (fun s => s.status)

/-! ## Helper lemmas -/

lemma pipeline_skip (d : Doc) (t1 t2 : Nat) (eo : CallOutcome Extracted)
    (co : CallOutcome String) (h : d.status ≠ ClassificationStatus.queued) :
    classify_document_pipeline d t1 t2 eo co = ⟨d, [d], false, false, false⟩ := by
  unfold classify_document_pipeline
  rw [if_pos h]

lemma pipeline_terminal (d : Doc) (t1 t2 : Nat) (eo : CallOutcome Extracted)
    (co : CallOutcome String) (h : d.status = ClassificationStatus.queued) :
    (classify_document_pipeline d t1 t2 eo co).final.status = ClassificationStatus.completed ∨
    (classify_document_pipeline d t1 t2 eo co).final.status = ClassificationStatus.failed := by
  unfold classify_document_pipeline
  rw [if_neg (by simp [h])]
  cases eo with
  | cancelled => simp [update_status]
  | raises e => simp [update_status]
  | ok ext =>
    by_cases hf : ext.isFalsy
    · simp [hf, update_status]
    · simp [hf, update_status]
      cases co with
      | cancelled => simp [update_status]
      | raises e => simp [update_status]
      | ok l => cases hl : classificationLevelOfString l <;> simp [hl, update_status]

lemma pipeline_casPassed (d : Doc) (t1 t2 : Nat) (eo : CallOutcome Extracted)
    (co : CallOutcome String) (h : d.status = ClassificationStatus.queued) :
    (classify_document_pipeline d t1 t2 eo co).casPassed = true := by
  unfold classify_document_pipeline
  rw [if_neg (by simp [h])]
  cases eo with
  | cancelled => simp
  | raises e => simp
  | ok ext =>
    by_cases hf : ext.isFalsy
    · simp [hf]
    · simp [hf]
      cases co with
      | cancelled => simp
      | raises e => simp
      | ok l => cases hl : classificationLevelOfString l <;> simp [hl]

/-- **C1.** Every pipeline invocation only performs status transitions
from the table queued→extracting_text→classifying→{completed,failed}
(with per-stage failure); within a run, once `failed` is written the
trace ends there and never contains `completed`; the pipeline never
writes `queued`, so `failed → queued` happens only through the explicit
retry CAS (which requires the current status to be `failed`), and the
recovery sweep either leaves a row unchanged or sets it to `failed`. -/
theorem C1_pipeline_transitions :
    (∀ (d : Doc) (t1 t2 : Nat) (eo : CallOutcome Extracted) (co : CallOutcome String),
      List.Chain' (fun a b => allowedTransition a b = true) (pipelineTrace d t1 t2 eo co)
      ∧ (ClassificationStatus.failed ∈ pipelineTrace d t1 t2 eo co →
          (pipelineTrace d t1 t2 eo co).getLast? = some ClassificationStatus.failed
          ∧ ClassificationStatus.completed ∉ pipelineTrace d t1 t2 eo co)
      ∧ ClassificationStatus.queued ∉ (pipelineTrace d t1 t2 eo co).tail)
    ∧ (∀ d d' : Doc, retry_document_classification d = .ok d' →
        d.status = ClassificationStatus.failed ∧ d'.status = ClassificationStatus.queued)
    ∧ (∀ (d : Doc) (now : Nat),
        recover_stale_documents d now = d ∨
        (recover_stale_documents d now).status = ClassificationStatus.failed) := by
  refine ⟨?_, ?_, ?_⟩
  · intro d t1 t2 eo co
    obtain ⟨st, cl, err, qa, ud⟩ := d
    by_cases h : st = ClassificationStatus.queued
    · subst h
      cases eo with
      | cancelled =>
          simp [allowedTransition, pipelineTrace, classify_document_pipeline, update_status]
      | raises e =>
          simp [allowedTransition, pipelineTrace, classify_document_pipeline, update_status]
      | ok ext =>
          by_cases hf : ext.isFalsy
          · simp [allowedTransition, pipelineTrace, classify_document_pipeline, update_status, hf]
          · cases co with
            | cancelled =>
                simp [allowedTransition, pipelineTrace, classify_document_pipeline, update_status, hf]
            | raises e =>
                simp [allowedTransition, pipelineTrace, classify_document_pipeline, update_status, hf]
            | ok l =>
                cases hl : classificationLevelOfString l <;>
                  simp [allowedTransition, pipelineTrace, classify_document_pipeline, update_status, hf, hl]
    · rw [pipelineTrace, pipeline_skip _ _ _ _ _ (by simpa using h)]
      refine ⟨by simp, ?_, by simp⟩
      intro hmem
      simp at hmem
      rw [← hmem]
      refine ⟨?_, ?_⟩ <;> simp [List.getLast?]
  · intro d d' h
    unfold retry_document_classification at h
    by_cases hs : d.status = ClassificationStatus.failed
    · rw [if_neg (by simpa using hs)] at h
      cases h
      exact ⟨hs, rfl⟩
    · rw [if_pos (by simpa using hs)] at h
      cases h
  · intro d now
    unfold recover_stale_documents
    split
    · right; rfl
    · split
      · right; rfl
      · split
        · right; rfl
        · left; rfl

/-- Witness for C1 at concrete inputs: a failing run's trace ends in
`failed` with no `completed`, and a concrete retry CAS goes from `failed`
to `queued`. -/
theorem C1_pipeline_transitions_witness :
    ((pipelineTrace ⟨.queued, .unclassified, none, some 0, 0⟩ 1 2
        (.ok (.text "body")) (.raises ⟨"IOError", "boom"⟩)).getLast? =
          some ClassificationStatus.failed
      ∧ ClassificationStatus.completed ∉ pipelineTrace ⟨.queued, .unclassified, none, some 0, 0⟩ 1 2
          (.ok (.text "body")) (.raises ⟨"IOError", "boom"⟩))
    ∧ ((⟨.failed, .public, some "boom", some 5, 7⟩ : Doc).status = ClassificationStatus.failed
       ∧ (⟨.queued, .public, none, some 5, 7⟩ : Doc).status = ClassificationStatus.queued) := by
  constructor
  · exact (C1_pipeline_transitions.1 ⟨.queued, .unclassified, none, some 0, 0⟩ 1 2
      (.ok (.text "body")) (.raises ⟨"IOError", "boom"⟩)).2.1 (by decide)
  · exact C1_pipeline_transitions.2.1 ⟨.failed, .public, some "boom", some 5, 7⟩
      ⟨.queued, .public, none, some 5, 7⟩ (by rfl)

/-- **C2.** Invoking the pipeline on a document not in `queued` is a safe
no-op: the entry CAS fails, no field changes, and neither extraction nor
classification is called.  Consequently, of two invocations on the same
`queued` document (serialized by the atomic CAS), the first passes the
entry guard, ends in a terminal state, and the second is a no-op. -/
theorem C2_cas_entry_guard :
    ∀ (d : Doc) (t1 t2 t1' t2' : Nat) (eo eo' : CallOutcome Extracted)
      (co co' : CallOutcome String),
      (d.status ≠ ClassificationStatus.queued →
        classify_document_pipeline d t1 t2 eo co = ⟨d, [d], false, false, false⟩)
      ∧ (d.status = ClassificationStatus.queued →
          (classify_document_pipeline d t1 t2 eo co).casPassed = true
          ∧ ((classify_document_pipeline d t1 t2 eo co).final.status =
                ClassificationStatus.completed ∨
              (classify_document_pipeline d t1 t2 eo co).final.status =
                ClassificationStatus.failed)
          ∧ classify_document_pipeline
                (classify_document_pipeline d t1 t2 eo co).final t1' t2' eo' co'
              = ⟨(classify_document_pipeline d t1 t2 eo co).final,
                  [(classify_document_pipeline d t1 t2 eo co).final],
                  false, false, false⟩) := by
  intro d t1 t2 t1' t2' eo eo' co co'
  constructor
  · intro h
    exact pipeline_skip d t1 t2 eo co h
  · intro h
    refine ⟨pipeline_casPassed d t1 t2 eo co h, pipeline_terminal d t1 t2 eo co h, ?_⟩
    apply pipeline_skip
    rcases pipeline_terminal d t1 t2 eo co h with ht | ht <;> rw [ht] <;> decide

/-- Witness for C2: a `completed` document is untouched by a pipeline
invocation, and a queued document's run passes the CAS exactly once. -/
theorem C2_cas_entry_guard_witness :
    (classify_document_pipeline ⟨.completed, .public, none, some 3, 1⟩ 10 11
        (.ok (.text "body")) (.ok "public")
      = ⟨⟨.completed, .public, none, some 3, 1⟩,
          [⟨.completed, .public, none, some 3, 1⟩], false, false, false⟩)
    ∧ ((classify_document_pipeline ⟨.queued, .unclassified, none, some 3, 1⟩ 10 11
          (.ok (.text "body")) (.ok "public")).casPassed = true) := by
  constructor
  · exact (C2_cas_entry_guard ⟨.completed, .public, none, some 3, 1⟩ 10 11 0 0
      (.ok (.text "body")) (.ok (.text "x")) (.ok "public") (.ok "public")).1 (by decide)
  · exact ((C2_cas_entry_guard ⟨.queued, .unclassified, none, some 3, 1⟩ 10 11 0 0
      (.ok (.text "body")) (.ok (.text "x")) (.ok "public") (.ok "public")).2 (by rfl)).1

/-- **C3 (counterexample).** The claim says every stage transition
refreshes `classificationQueuedAt`.  In the run below the entry CAS runs
at time 100 and the `classifying` transition at time 200, yet the row
state written by the `classifying` transition still carries timestamp
100: `_update_status` writes only status and error, so the stamp is not
refreshed on entry to `classifying`. -/
theorem C3_counterexample :
    ((classify_document_pipeline ⟨.queued, .unclassified, some "old", some 99, 0⟩ 100 200
        (.ok (.text "body")) (.ok "public")).states.get? 2 =
      some ⟨.classifying, .unclassified, none, some 100, 0⟩)
    ∧ (100 : Nat) ≠ 200 := ⟨by rfl, by decide⟩

/-- **C3 (amended).** The entry CAS (`queued → extracting_text`) clears
the error field and sets `classificationQueuedAt` to the entry time; the
`classifying` transition clears the error field but does NOT refresh the
timestamp — every non-terminal stage state written by a run carries the
pipeline-entry timestamp, so staleness measures time since pipeline
entry, not time in the current stage. -/
theorem C3_stage_transitions_amended :
    ∀ (d : Doc) (tCas tClassify : Nat) (eo : CallOutcome Extracted)
      (co : CallOutcome String),
      d.status = ClassificationStatus.queued →
      ∀ d' ∈ (classify_document_pipeline d tCas tClassify eo co).states,
        (d'.status = ClassificationStatus.extracting_text ∨
         d'.status = ClassificationStatus.classifying) →
        d'.classification_error = none ∧ d'.classification_queued_at = some tCas := by
  intro d tCas tClassify eo co h d' hmem hst
  obtain ⟨st, cl, err, qa, ud⟩ := d
  simp only [Doc.status] at h
  subst h
  unfold classify_document_pipeline at hmem
  rw [if_neg (by simp)] at hmem
  rcases eo with ext | e | _
  · by_cases hf : ext.isFalsy
    · simp [hf, update_status] at hmem
      rcases hmem with rfl | rfl | rfl <;> simp_all
    · rcases co with l | e | _
      · rcases hl : classificationLevelOfString l with _ | lvl <;>
          · simp [hf, hl, update_status] at hmem
            rcases hmem with rfl | rfl | rfl | rfl <;> simp_all
      · simp [hf, update_status] at hmem
        rcases hmem with rfl | rfl | rfl | rfl <;> simp_all
      · simp [hf, update_status] at hmem
        rcases hmem with rfl | rfl | rfl | rfl <;> simp_all
  · simp [update_status] at hmem
    rcases hmem with rfl | rfl | rfl <;> simp_all
  · simp [update_status] at hmem
    rcases hmem with rfl | rfl | rfl <;> simp_all

/-- Witness for C3 (amended): in a concrete completing run, the
`classifying`-stage state has a cleared error and the entry timestamp. -/
theorem C3_stage_transitions_amended_witness :
    (⟨.classifying, .unclassified, none, some 100, 0⟩ : Doc).classification_error = none
    ∧ (⟨.classifying, .unclassified, none, some 100, 0⟩ : Doc).classification_queued_at
        = some 100 := by
  exact C3_stage_transitions_amended ⟨.queued, .unclassified, some "old", some 99, 0⟩ 100 200
    (.ok (.text "body")) (.ok "public") (by rfl)
    ⟨.classifying, .unclassified, none, some 100, 0⟩ (by decide) (by decide)

/-- **C7 (counterexample).** An `Unauthenticated` failure on attempt 1
makes exactly one call, but the persisted message is the generic
`RuntimeError` mapping "Classification configuration error — contact
your administrator.", not the sanitizer's authentication-specific entry
"Authentication error — contact your administrator." (the Unauthenticated
exception is wrapped in a RuntimeError before it reaches the sanitizer,
so the authentication-specific entry is unreachable on this path). -/
theorem C7_counterexample :
    (classify_text_with_gemini defaultThreshold 3 "text"
        [.unauthenticated "invalid credentials"]).calls = 1
    ∧ ((classify_document_pipeline ⟨.queued, .unclassified, none, some 0, 0⟩ 1 2
        (.ok (.text "body"))
        (.raises ⟨"RuntimeError",
          "Vertex AI authentication failed: invalid credentials"⟩)).final.classification_error
        = some "Classification configuration error — contact your administrator.")
    ∧ ("Classification configuration error — contact your administrator." ≠
        "Authentication error — contact your administrator.") := by
  refine ⟨by rfl, by rfl, by decide⟩

/-- **C7 (amended).** An `Unauthenticated` error on the first attempt
causes exactly one outbound call, no retry and no backoff sleep, raising
a `RuntimeError` that wraps the authentication failure; the pipeline then
ends `failed`, persisting the sanitizer's `RuntimeError` mapping
("Classification configuration error — contact your administrator."),
which is not authentication-specific. -/
theorem C7_auth_failure_amended :
    (∀ (threshold : Dec) (mr : Nat) (text m : String) (rest : List AttemptOutcome),
      1 ≤ mr → isBlank text = false →
      (classify_text_with_gemini threshold mr text (.unauthenticated m :: rest)).calls = 1
      ∧ (classify_text_with_gemini threshold mr text (.unauthenticated m :: rest)).sleeps = []
      ∧ (classify_text_with_gemini threshold mr text (.unauthenticated m :: rest)).result
          = .error ⟨"RuntimeError", "Vertex AI authentication failed: " ++ m⟩)
    ∧ (∀ (d : Doc) (t1 t2 : Nat) (ext : Extracted) (em : String),
        d.status = ClassificationStatus.queued → ext.isFalsy = false →
        (classify_document_pipeline d t1 t2 (.ok ext)
            (.raises ⟨"RuntimeError", em⟩)).final.status = ClassificationStatus.failed
        ∧ (classify_document_pipeline d t1 t2 (.ok ext)
            (.raises ⟨"RuntimeError", em⟩)).final.classification_error =
            some "Classification configuration error — contact your administrator.") := by
  constructor
  · intro threshold mr text m rest hmr htext
    obtain ⟨mr, rfl⟩ : ∃ k, mr = k + 1 := ⟨mr - 1, by omega⟩
    simp [classify_text_with_gemini, htext, classify_attempts]
  · intro d t1 t2 ext em h hf
    obtain ⟨st, cl, err, qa, ud⟩ := d
    simp only [Doc.status] at h
    subst h
    unfold classify_document_pipeline
    rw [if_neg (by simp)]
    simp [hf, update_status, _sanitize_classification_error]

/-- Witness for C7 (amended), at a concrete run. -/
theorem C7_auth_failure_amended_witness :
    ((classify_text_with_gemini defaultThreshold 3 "text"
        [.unauthenticated "bad key", .ok "x", .ok "y"]).calls = 1
      ∧ (classify_text_with_gemini defaultThreshold 3 "text"
          [.unauthenticated "bad key", .ok "x", .ok "y"]).sleeps = []
      ∧ (classify_text_with_gemini defaultThreshold 3 "text"
          [.unauthenticated "bad key", .ok "x", .ok "y"]).result
          = .error ⟨"RuntimeError", "Vertex AI authentication failed: " ++ "bad key"⟩)
    ∧ ((classify_document_pipeline ⟨.queued, .unclassified, none, some 0, 0⟩ 1 2
          (.ok (.text "body")) (.raises ⟨"RuntimeError", "boom"⟩)).final.status
          = ClassificationStatus.failed
      ∧ (classify_document_pipeline ⟨.queued, .unclassified, none, some 0, 0⟩ 1 2
          (.ok (.text "body")) (.raises ⟨"RuntimeError", "boom"⟩)).final.classification_error
          = some "Classification configuration error — contact your administrator.") := by
  constructor
  · exact C7_auth_failure_amended.1 defaultThreshold 3 "text" "bad key" [.ok "x", .ok "y"]
      (by decide) (by decide)
  · exact C7_auth_failure_amended.2 ⟨.queued, .unclassified, none, some 0, 0⟩ 1 2
      (.text "body") "boom" (by rfl) (by decide)

/-- **C8.** A parse result whose confidence is below the threshold is
normalized to label `unclassified`, and a pipeline run whose
classification stage returns `"unclassified"` ends `completed` with
label `unclassified` and the non-null "manual review recommended" note —
never `failed` (which is reserved for processing errors). -/
theorem C8_low_confidence_completes :
    (∀ (threshold : Dec) (s l : String) (c : Dec),
      parse_gemini_response threshold s = .ok (l, c) → Dec.blt c threshold = true →
      l = "unclassified")
    ∧ (∀ (d : Doc) (t1 t2 : Nat) (ext : Extracted),
        d.status = ClassificationStatus.queued → ext.isFalsy = false →
        (classify_document_pipeline d t1 t2 (.ok ext) (.ok "unclassified")).final.status
            = ClassificationStatus.completed
        ∧ (classify_document_pipeline d t1 t2 (.ok ext) (.ok "unclassified")).final.classification
            = ClassificationLevel.unclassified
        ∧ (classify_document_pipeline d t1 t2 (.ok ext) (.ok "unclassified")).final.classification_error
            = some lowConfidenceNote
        ∧ (classify_document_pipeline d t1 t2 (.ok ext) (.ok "unclassified")).final.status
            ≠ ClassificationStatus.failed) := by
  constructor
  · intro threshold s l c hp hc
    unfold parse_gemini_response at hp
    generalize json_loads (cleanResponse s) = decoded at hp
    unfold parse_core at hp
    repeat' first
      | split at hp
      | dsimp only at hp
    all_goals
      first
        | (injection hp with h; injection h with h1 h2;
            first
              | exact h1.symm
              | exact absurd (h2.symm ▸ hc) (by assumption))
        | injection hp
  · intro d t1 t2 ext h hf
    obtain ⟨st, cl, err, qa, ud⟩ := d
    simp only [Doc.status] at h
    subst h
    unfold classify_document_pipeline
    rw [if_neg (by simp)]
    simp [hf, update_status, classificationLevelOfString]

/-- Witness for C8: a concrete response with a valid label but
confidence 0.3 < 0.65 parses to `unclassified`, and a concrete
low-confidence run completes with the note. -/
theorem C8_low_confidence_completes_witness :
    ("unclassified" = "unclassified")
    ∧ ((classify_document_pipeline ⟨.queued, .unclassified, none, some 0, 0⟩ 1 2
          (.ok (.text "body")) (.ok "unclassified")).final.status
          = ClassificationStatus.completed
      ∧ (classify_document_pipeline ⟨.queued, .unclassified, none, some 0, 0⟩ 1 2
          (.ok (.text "body")) (.ok "unclassified")).final.classification
          = ClassificationLevel.unclassified
      ∧ (classify_document_pipeline ⟨.queued, .unclassified, none, some 0, 0⟩ 1 2
          (.ok (.text "body")) (.ok "unclassified")).final.classification_error
          = some lowConfidenceNote
      ∧ (classify_document_pipeline ⟨.queued, .unclassified, none, some 0, 0⟩ 1 2
          (.ok (.text "body")) (.ok "unclassified")).final.status
          ≠ ClassificationStatus.failed) := by
  constructor
  · exact C8_low_confidence_completes.1 defaultThreshold
      "\x7b\"classification\": \"internal\", \"confidence\": 0.3\x7d" "unclassified" ⟨3, 1⟩
      (by rfl) (by decide)
  · exact C8_low_confidence_completes.2 ⟨.queued, .unclassified, none, some 0, 0⟩ 1 2
      (.text "body") (by rfl) (by decide)

/-- All-transient attempt sequences drive the retry loop to exhaustion:
`maxRetries` calls, the final `RuntimeError`, and exactly the sleeps
`sleepOf` prescribes (2^attempt after quota exhaustion, 1 s after a
generic API/IO/parse error, none after a timeout or empty response). -/
lemma attempts_transient (threshold : Dec) (mr : Nat) :
    ∀ (os : List AttemptOutcome) (a : Nat) (le : Option String),
      (∀ o ∈ os, isTransientOutcome o = true) →
      ∃ msg, classify_attempts threshold mr os a le =
        ⟨.error ⟨"RuntimeError", msg⟩, os.length, (os.enumFrom a).filterMap sleepOf⟩ := by
  intro os
  induction os with
  | nil => intro a le _; exact ⟨_, rfl⟩
  | cons o rest ih =>
    intro a le hall
    have hrest : ∀ x ∈ rest, isTransientOutcome x = true :=
      fun x hx => hall x (List.mem_cons_of_mem _ hx)
    have ho := hall o (List.mem_cons_self _ _)
    cases o with
    | ok r => simp [isTransientOutcome] at ho
    | unauthenticated m => simp [isTransientOutcome] at ho
    | invalidArgument m => simp [isTransientOutcome] at ho
    | emptyResponse =>
        obtain ⟨msg, hm⟩ := ih (a + 1) le hrest
        exact ⟨msg, by
          simp [classify_attempts, hm, ClassifyRun.afterAttempt, List.enumFrom, sleepOf]⟩
    | timeout =>
        obtain ⟨msg, hm⟩ := ih (a + 1) (some ("Timeout on attempt " ++ toString a)) hrest
        exact ⟨msg, by
          simp [classify_attempts, hm, ClassifyRun.afterAttempt, List.enumFrom, sleepOf]⟩
    | resourceExhausted =>
        obtain ⟨msg, hm⟩ := ih (a + 1) (some ("Quota exceeded on attempt " ++ toString a)) hrest
        exact ⟨msg, by
          simp [classify_attempts, hm, ClassifyRun.afterAttempt, List.enumFrom, sleepOf]⟩
    | apiError m =>
        obtain ⟨msg, hm⟩ := ih (a + 1)
          (some ("Retryable error on attempt " ++ toString a ++ ": " ++ m)) hrest
        exact ⟨msg, by
          simp [classify_attempts, hm, ClassifyRun.afterAttempt, List.enumFrom, sleepOf]⟩

/-- **C6 (counterexample).** A timeout is a transient error, yet it is
retried with NO sleep: after a timeout on attempt 1 and success on
attempt 2, two calls were made and the sleep list is empty — there is no
"short fixed delay" after this transient error. -/
theorem C6_counterexample :
    (classify_text_with_gemini defaultThreshold 3 "text"
        [.timeout, .ok "\x7b\"classification\": \"public\", \"confidence\": 0.9\x7d",
         .emptyResponse]).calls = 2
    ∧ (classify_text_with_gemini defaultThreshold 3 "text"
        [.timeout, .ok "\x7b\"classification\": \"public\", \"confidence\": 0.9\x7d",
         .emptyResponse]).sleeps = []
    ∧ (classify_text_with_gemini defaultThreshold 3 "text"
        [.timeout, .ok "\x7b\"classification\": \"public\", \"confidence\": 0.9\x7d",
         .emptyResponse]).result = .ok ("public", ⟨9, 1⟩) := by
  refine ⟨rfl, rfl, rfl⟩

/-- **C6 (amended).** The client retries transient failures (timeout,
quota exhaustion, generic API/IO/parse errors, empty responses) up to
`maxRetries` attempts and raises a terminal `RuntimeError` at the
ceiling; it sleeps `2 ^ attempt` after quota exhaustion and a fixed 1 s
after a generic API/IO/parse error, but does NOT sleep after a timeout
or an empty response.  ResourceExhausted on attempts 1–2 with success on
attempt 3 yields the attempt-3 result, exactly 3 calls, and the
increasing backoff sleeps [2, 4]. -/
theorem C6_retry_backoff_amended :
    (∀ (threshold : Dec) (text : String) (outcomes : List AttemptOutcome),
      isBlank text = false →
      (∀ o ∈ outcomes, isTransientOutcome o = true) →
      ∃ msg, classify_text_with_gemini threshold outcomes.length text outcomes =
        ⟨.error ⟨"RuntimeError", msg⟩, outcomes.length,
          (outcomes.enumFrom 1).filterMap sleepOf⟩)
    ∧ ((classify_text_with_gemini defaultThreshold 3 "text"
          [.resourceExhausted, .resourceExhausted,
           .ok "\x7b\"classification\": \"public\", \"confidence\": 0.9\x7d"])
        = ⟨.ok ("public", ⟨9, 1⟩), 3, [2, 4]⟩
       ∧ (2 : Nat) < 4) := by
  constructor
  · intro threshold text outcomes htext hall
    obtain ⟨msg, hm⟩ := attempts_transient threshold outcomes.length outcomes 1 none hall
    exact ⟨msg, by simp [classify_text_with_gemini, htext, List.take_length, hm]⟩
  · exact ⟨rfl, by decide⟩

/-- Witness for C6 (amended): three straight timeouts exhaust a
3-attempt budget with three calls and no sleeps. -/
theorem C6_retry_backoff_amended_witness :
    ∃ msg, classify_text_with_gemini defaultThreshold 3 "text"
        [.timeout, .timeout, .timeout]
      = ⟨.error ⟨"RuntimeError", msg⟩, 3,
          ([AttemptOutcome.timeout, .timeout, .timeout].enumFrom 1).filterMap sleepOf⟩ :=
  C6_retry_backoff_amended.1 defaultThreshold "text" [.timeout, .timeout, .timeout]
    (by decide) (by decide)

/-- **C9 (counterexample).** Parsing is not total: a payload whose JSON
decodes to a non-object (here `[1, 2]`) raises an `AttributeError` from
`data.get` (only `json.JSONDecodeError` is caught), contradicting "it
never raises an error for any input string". -/
theorem C9_counterexample :
    parse_gemini_response defaultThreshold "[1, 2]" =
      .error ⟨"AttributeError", "object has no attribute 'get'"⟩ := by rfl

/-- **C9 (amended).** Parsing strips code fences and slices from the
first `{` to the last `}`; an undecodable payload, an out-of-set label,
or a below-threshold confidence is normalized to `unclassified` (a
returned non-`unclassified` label is always valid with confidence at or
above the threshold) — but it is total only for payloads decoding to an
object whose `classification` is a string and whose `confidence` is
float-convertible: otherwise an AttributeError/ValueError/TypeError
escapes. -/
theorem C9_parse_normalization_amended :
    ∀ (threshold : Dec) (s : String),
      (json_loads (cleanResponse s) = none →
        parse_gemini_response threshold s = .ok ("unclassified", ⟨0, 0⟩))
      ∧ (∀ l c, parse_gemini_response threshold s = .ok (l, c) →
          l = "unclassified" ∨
            (VALID_LABELS.contains l = true ∧ Dec.ble threshold c = true))
      ∧ (∀ e, parse_gemini_response threshold s = .error e →
          e.name = "AttributeError" ∨ e.name = "ValueError" ∨ e.name = "TypeError") := by
  intro threshold s
  refine ⟨?_, ?_, ?_⟩
  · intro h
    unfold parse_gemini_response
    rw [h]
    rfl
  · intro l c hp
    unfold parse_gemini_response at hp
    generalize json_loads (cleanResponse s) = decoded at hp
    unfold parse_core at hp
    repeat' first
      | split at hp
      | dsimp only at hp
    all_goals
      first
        | (injection hp with h; injection h with h1 h2; subst h1; subst h2;
            first
              | exact Or.inl rfl
              | (rename_i hblt hvalid
                 refine Or.inr ⟨not_not.mp hvalid, ?_⟩
                 simp only [Dec.blt, decide_eq_true_eq] at hblt
                 simp only [Dec.ble, decide_eq_true_eq]
                 omega))
        | injection hp
  · intro e hp
    unfold parse_gemini_response at hp
    generalize json_loads (cleanResponse s) = decoded at hp
    unfold parse_core at hp
    repeat' first
      | split at hp
      | dsimp only at hp
    all_goals
      first
        | (injection hp with h; subst h; decide)
        | injection hp

/-- Witness for C9 (amended): a concrete high-confidence response yields
a valid label at or above the threshold. -/
theorem C9_parse_normalization_amended_witness :
    "public" = "unclassified" ∨
      (VALID_LABELS.contains "public" = true ∧ Dec.ble defaultThreshold ⟨9, 1⟩ = true) :=
  (C9_parse_normalization_amended defaultThreshold
      "\x7b\"classification\": \"public\", \"confidence\": 0.9\x7d").2.1 "public" ⟨9, 1⟩ (by rfl)

/-- A ranked label (rank ≥ 1) is recovered from its rank. -/
lemma labelOfRank_rank (s : String) (h : 1 ≤ SECURITY_RANK s) :
    labelOfRank (SECURITY_RANK s) = s := by
  by_cases h1 : s = "confidential"
  · subst h1; rfl
  · by_cases h2 : s = "internal"
    · subst h2; rfl
    · by_cases h3 : s = "public"
      · subst h3; rfl
      · exfalso
        simp [SECURITY_RANK, h1, h2, h3] at h

/-- The aggregation fold returns either its accumulator or one of the
inputs. -/
lemma agg_fold_mem :
    ∀ (l : List (String × Dec)) (b : String × Dec),
      l.foldl (fun best r =>
        if SECURITY_RANK r.1 > SECURITY_RANK best.1 then r else best) b ∈ b :: l := by
  intro l
  induction l with
  | nil => intro b; simp
  | cons x xs ih =>
    intro b
    simp only [List.foldl_cons]
    by_cases h : SECURITY_RANK x.1 > SECURITY_RANK b.1
    · rw [if_pos h]
      have := ih x
      simp only [List.mem_cons] at this ⊢
      tauto
    · rw [if_neg h]
      have := ih b
      simp only [List.mem_cons] at this ⊢
      tauto

/-- The rank of the fold's result is the max of the accumulator's rank
and the ranks in the list. -/
lemma agg_fold_rank :
    ∀ (l : List (String × Dec)) (b : String × Dec),
      SECURITY_RANK ((l.foldl (fun best r =>
        if SECURITY_RANK r.1 > SECURITY_RANK best.1 then r else best) b).1)
      = max (SECURITY_RANK b.1) (maxRank l) := by
  intro l
  induction l with
  | nil => intro b; simp [maxRank]
  | cons x xs ih =>
    intro b
    simp only [List.foldl_cons, maxRank, List.foldr_cons] at ih ⊢
    by_cases h : SECURITY_RANK x.1 > SECURITY_RANK b.1
    · rw [if_pos h, ih x]
      omega
    · rw [if_neg h, ih b]
      omega

/-- When no input outranks the accumulator, the fold keeps it. -/
lemma agg_fold_id :
    ∀ (l : List (String × Dec)) (b : String × Dec),
      maxRank l ≤ SECURITY_RANK b.1 →
      l.foldl (fun best r =>
        if SECURITY_RANK r.1 > SECURITY_RANK best.1 then r else best) b = b := by
  intro l
  induction l with
  | nil => intro b _; rfl
  | cons x xs ih =>
    intro b hle
    simp only [maxRank, List.foldr_cons] at hle
    simp only [List.foldl_cons]
    rw [if_neg (by simp only [maxRank] at ih ⊢; omega)]
    exact ih b (by simp only [maxRank]; omega)

/-- The aggregated label is a function of the ranks only. -/
lemma agg_label (l : List (String × Dec)) :
    (aggregate_chunk_results l).1 = labelOfRank (maxRank l) := by
  rcases Nat.eq_zero_or_pos (maxRank l) with h | h
  · unfold aggregate_chunk_results
    rw [agg_fold_id l _ (by rw [h]; exact Nat.zero_le _)]
    rw [h]
    rfl
  · have hr := agg_fold_rank l ("unclassified", ⟨0, 0⟩)
    have h0 : SECURITY_RANK ("unclassified", (⟨0, 0⟩ : Dec)).1 = 0 := by rfl
    rw [h0, Nat.max_comm, Nat.max_zero] at hr
    have := labelOfRank_rank (aggregate_chunk_results l).1
      (by unfold aggregate_chunk_results; rw [hr]; omega)
    unfold aggregate_chunk_results at this ⊢
    rw [hr] at this
    exact this.symm

/-- `maxRank` is invariant under permutation. -/
lemma maxRank_perm {l l' : List (String × Dec)} (h : l.Perm l') :
    maxRank l = maxRank l' := by
  induction h with
  | nil => rfl
  | cons x _ ih => simp only [maxRank, List.foldr_cons] at ih ⊢; rw [ih]
  | swap x y l => simp only [maxRank, List.foldr_cons]; omega
  | trans _ _ ih1 ih2 => exact ih1.trans ih2

/-- **C4 (counterexample).** The aggregated (label, confidence) pair is
NOT permutation-invariant: two chunks that tie on the maximal rank keep
the first-encountered confidence, so the two orderings of
`[(confidential, 0.5), (confidential, 0.9)]` aggregate to different
pairs even though the lists are permutations of each other. -/
theorem C4_counterexample :
    aggregate_chunk_results [("confidential", ⟨5, 1⟩), ("confidential", ⟨9, 1⟩)]
        = ("confidential", ⟨5, 1⟩)
    ∧ aggregate_chunk_results [("confidential", ⟨9, 1⟩), ("confidential", ⟨5, 1⟩)]
        = ("confidential", ⟨9, 1⟩)
    ∧ List.Perm [(("confidential" : String), (⟨5, 1⟩ : Dec)), ("confidential", ⟨9, 1⟩)]
        [("confidential", ⟨9, 1⟩), ("confidential", ⟨5, 1⟩)]
    ∧ ((("confidential" : String), (⟨5, 1⟩ : Dec)) ≠ ("confidential", ⟨9, 1⟩)) := by
  refine ⟨rfl, rfl, ?_, by decide⟩
  exact List.Perm.swap _ _ _

/-- **C4 (amended).** The aggregated LABEL is invariant under every
permutation of the chunk-result list (it is determined by the maximal
rank); the reported confidence is that of the first chunk attaining the
maximal rank, so the full pair is order-independent only when a single
chunk attains it — as in the spec's example, whose every permutation
aggregates to `(confidential, 0.5)`. -/
theorem C4_aggregation_amended :
    (∀ l l' : List (String × Dec), l.Perm l' →
      (aggregate_chunk_results l).1 = (aggregate_chunk_results l').1)
    ∧ (∀ l : List (String × Dec),
        l.Perm [("public", ⟨9, 1⟩), ("confidential", ⟨5, 1⟩), ("internal", ⟨99, 2⟩)] →
        aggregate_chunk_results l = ("confidential", ⟨5, 1⟩)) := by
  constructor
  · intro l l' h
    rw [agg_label, agg_label, maxRank_perm h]
  · intro l h
    have hmax : maxRank l = 3 := by rw [maxRank_perm h]; rfl
    have hlabel : (aggregate_chunk_results l).1 = "confidential" := by
      rw [agg_label, hmax]; rfl
    unfold aggregate_chunk_results at hlabel
    have hmem := agg_fold_mem l ("unclassified", ⟨0, 0⟩)
    rw [List.mem_cons] at hmem
    rcases hmem with he | hl
    · exfalso
      rw [he] at hlabel
      exact absurd hlabel (by decide)
    · have := h.subset hl
      simp only [List.mem_cons, List.not_mem_nil, or_false] at this
      rcases this with h1 | h1 | h1
      · exfalso; rw [h1] at hlabel; exact absurd hlabel (by decide)
      · unfold aggregate_chunk_results; exact h1
      · exfalso; rw [h1] at hlabel; exact absurd hlabel (by decide)

/-- Witness for C4 (amended): a concrete permutation of the spec's
example aggregates to `(confidential, 0.5)`. -/
theorem C4_aggregation_amended_witness :
    aggregate_chunk_results
        [("confidential", ⟨5, 1⟩), ("public", ⟨9, 1⟩), ("internal", ⟨99, 2⟩)]
      = ("confidential", ⟨5, 1⟩) :=
  C4_aggregation_amended.2
    [("confidential", ⟨5, 1⟩), ("public", ⟨9, 1⟩), ("internal", ⟨99, 2⟩)]
    (List.Perm.swap _ _ _)

/-- Blankness distributes over string append. -/
lemma isBlank_append (a b : String) : isBlank (a ++ b) = (isBlank a && isBlank b) := by
  cases a with
  | mk la =>
    cases b with
    | mk lb =>
      show (String.mk (la ++ lb)).data.all _ = _
      simp [isBlank, List.all_append]

/-- Joining a non-empty list of non-blank strings with newlines is
non-blank. -/
lemma isBlank_joinNL :
    ∀ (ts : List String), ts ≠ [] → (∀ t ∈ ts, isBlank t = false) →
      isBlank (joinNL ts) = false := by
  intro ts
  induction ts with
  | nil => intro h; exact absurd rfl h
  | cons t rest ih =>
    intro _ hall
    cases rest with
    | nil => exact hall t (by simp)
    | cons u us =>
      show isBlank (t ++ "\n" ++ joinNL (u :: us)) = false
      rw [isBlank_append, isBlank_append]
      simp [hall t (by simp)]

/-- One loop iteration either leaves `chunks` unchanged or (below the
cap) appends a single non-blank chunk. -/
lemma processPage_chunks_cases (cfg : ChunkCfg) (st : ChunkState) (p : Option String) :
    (processPage cfg st p).chunks = st.chunks ∨
    (∃ txt, isBlank txt = false ∧ st.chunks.length < cfg.maxChunks ∧
      (processPage cfg st p).chunks = st.chunks ++ [txt]) := by
  unfold processPage
  split
  · exact Or.inl rfl
  · rename_i hguard
    cases p with
    | none => exact Or.inl rfl
    | some t =>
      dsimp only
      by_cases h1 : st.pages_in_chunk + 1 ≥ cfg.maxPagesPerPart
      · rw [if_pos h1]
        by_cases h2 :
            isBlank (joinNL (if isBlank t = false then st.chunk_texts ++ [t]
              else st.chunk_texts)) = true
        · rw [if_neg (by simp [h2])]
          exact Or.inl rfl
        · rw [if_pos (by simpa using h2)]
          exact Or.inr ⟨_, by simpa using h2, by omega, rfl⟩
      · rw [if_neg h1]
        exact Or.inl rfl

/-- The trailing flush either leaves `chunks` unchanged or (below the
cap) appends a single non-blank chunk. -/
lemma finishChunks_cases (cfg : ChunkCfg) (st : ChunkState) :
    finishChunks cfg st = st.chunks ∨
    (∃ txt, isBlank txt = false ∧ st.chunks.length < cfg.maxChunks ∧
      finishChunks cfg st = st.chunks ++ [txt]) := by
  unfold finishChunks
  split
  · rename_i hc
    dsimp only
    by_cases h2 : isBlank (joinNL st.chunk_texts) = true
    · rw [if_neg (by simp [h2])]
      exact Or.inl rfl
    · rw [if_pos (by simpa using h2)]
      exact Or.inr ⟨_, by simpa using h2, hc.2, rfl⟩
  · exact Or.inl rfl

/-- One loop iteration never pushes `chunks` past the cap. -/
lemma processPage_chunks_le (cfg : ChunkCfg) (st : ChunkState) (p : Option String)
    (h : st.chunks.length ≤ cfg.maxChunks) :
    (processPage cfg st p).chunks.length ≤ cfg.maxChunks := by
  rcases processPage_chunks_cases cfg st p with he | ⟨txt, _, hlt, he⟩ <;> rw [he]
  · exact h
  · simp only [List.length_append, List.length_cons, List.length_nil]
    omega

/-- The whole loop never pushes `chunks` past the cap. -/
lemma fold_chunks_le (cfg : ChunkCfg) :
    ∀ (ps : List (Option String)) (st : ChunkState),
      st.chunks.length ≤ cfg.maxChunks →
      ((ps.foldl (processPage cfg) st).chunks).length ≤ cfg.maxChunks := by
  intro ps
  induction ps with
  | nil => intro st h; exact h
  | cons p rest ih => intro st h; exact ih _ (processPage_chunks_le cfg st p h)

/-- The trailing flush never pushes `chunks` past the cap. -/
lemma finishChunks_le (cfg : ChunkCfg) (st : ChunkState)
    (h : st.chunks.length ≤ cfg.maxChunks) :
    (finishChunks cfg st).length ≤ cfg.maxChunks := by
  rcases finishChunks_cases cfg st with he | ⟨txt, _, hlt, he⟩ <;> rw [he]
  · exact h
  · simp only [List.length_append, List.length_cons, List.length_nil]
    omega

/-- One loop iteration only ever appends non-blank chunks. -/
lemma processPage_nonblank (cfg : ChunkCfg) (st : ChunkState) (p : Option String)
    (h : ∀ c ∈ st.chunks, isBlank c = false) :
    ∀ c ∈ (processPage cfg st p).chunks, isBlank c = false := by
  rcases processPage_chunks_cases cfg st p with he | ⟨txt, hnb, _, he⟩ <;> rw [he]
  · exact h
  · intro c hc
    rcases List.mem_append.mp hc with hc | hc
    · exact h c hc
    · simp only [List.mem_singleton] at hc
      subst hc
      exact hnb

/-- The whole loop only ever appends non-blank chunks. -/
lemma fold_nonblank (cfg : ChunkCfg) :
    ∀ (ps : List (Option String)) (st : ChunkState),
      (∀ c ∈ st.chunks, isBlank c = false) →
      ∀ c ∈ (ps.foldl (processPage cfg) st).chunks, isBlank c = false := by
  intro ps
  induction ps with
  | nil => intro st h; exact h
  | cons p rest ih => intro st h; exact ih _ (processPage_nonblank cfg st p h)

/-- The trailing flush only ever appends a non-blank chunk. -/
lemma finishChunks_nonblank (cfg : ChunkCfg) (st : ChunkState)
    (h : ∀ c ∈ st.chunks, isBlank c = false) :
    ∀ c ∈ finishChunks cfg st, isBlank c = false := by
  rcases finishChunks_cases cfg st with he | ⟨txt, hnb, _, he⟩ <;> rw [he]
  · exact h
  · intro c hc
    rcases List.mem_append.mp hc with hc | hc
    · exact h c hc
    · simp only [List.mem_singleton] at hc
      subst hc
      exact hnb

/-- **C10.** For every input and claimed page count, the large-PDF
chunker returns at most `maxChunks` chunks, every returned chunk is a
non-empty non-whitespace string, and an unopenable file yields the empty
list. -/
theorem C10_chunker_invariants :
    ∀ (cfg : ChunkCfg) (doc : Option (List (Option String))) (tp : Nat),
      (extract_large_pdf_chunks cfg doc tp).length ≤ cfg.maxChunks
      ∧ (∀ c ∈ extract_large_pdf_chunks cfg doc tp, isBlank c = false ∧ c ≠ "")
      ∧ extract_large_pdf_chunks cfg none tp = [] := by
  intro cfg doc tp
  refine ⟨?_, ?_, rfl⟩
  · cases doc with
    | none => simp [extract_large_pdf_chunks]
    | some pages =>
      unfold extract_large_pdf_chunks
      exact finishChunks_le _ _ (fold_chunks_le _ _ _ (by simp))
  · cases doc with
    | none => simp [extract_large_pdf_chunks]
    | some pages =>
      unfold extract_large_pdf_chunks
      intro c hc
      have hb := finishChunks_nonblank _ _ (fold_nonblank _ _ _ (by simp)) c hc
      refine ⟨hb, ?_⟩
      intro he
      subst he
      simp [isBlank] at hb

/-- Witness for C10: on a concrete 3-page document with one failing
page, the single produced chunk is non-blank and non-empty. -/
theorem C10_chunker_invariants_witness :
    isBlank "a\nb" = false ∧ "a\nb" ≠ "" :=
  (C10_chunker_invariants ⟨2, 3⟩ (some [some "a", none, some "b"]) 3).2.1
    "a\nb" (by decide)

/-- Folding fewer than a chunk's worth of non-blank pages (below the
chunk cap) just accumulates them into `chunk_texts`. -/
lemma chunk_fold_accum (cfg : ChunkCfg) :
    ∀ (ps : List String) (st : ChunkState),
      (∀ t ∈ ps, isBlank t = false) →
      st.chunks.length < cfg.maxChunks →
      st.pages_in_chunk + ps.length < cfg.maxPagesPerPart →
      (ps.map some).foldl (processPage cfg) st =
        ⟨st.chunks, st.chunk_texts ++ ps, st.pages_in_chunk + ps.length⟩ := by
  intro ps
  induction ps with
  | nil =>
    intro st _ _ _
    simp
  | cons p rest ih =>
    intro st hall hlen hpic
    simp only [List.length_cons] at hpic
    simp only [List.map_cons, List.foldl_cons]
    have hp : isBlank p = false := hall p (List.mem_cons_self _ _)
    have hstep : processPage cfg st (some p) =
        ⟨st.chunks, st.chunk_texts ++ [p], st.pages_in_chunk + 1⟩ := by
      unfold processPage
      rw [if_neg (by omega)]
      dsimp only
      rw [if_neg (by omega)]
      rw [if_pos (show ¬ isBlank p = true by simp [hp])]
    rw [hstep]
    rw [ih ⟨st.chunks, st.chunk_texts ++ [p], st.pages_in_chunk + 1⟩
      (fun t ht => hall t (List.mem_cons_of_mem _ ht)) hlen (by dsimp only; omega)]
    simp [List.append_assoc]
    omega

/-- Folding exactly a chunk's worth of non-blank pages (below the chunk
cap) flushes them as one joined chunk and resets the accumulator. -/
lemma chunk_fold_group (cfg : ChunkCfg) :
    ∀ (ps : List String) (chunks acc : List String) (k : Nat),
      ps ≠ [] →
      (∀ t ∈ ps, isBlank t = false) →
      (∀ t ∈ acc, isBlank t = false) →
      chunks.length < cfg.maxChunks →
      k + ps.length = cfg.maxPagesPerPart →
      (ps.map some).foldl (processPage cfg) ⟨chunks, acc, k⟩ =
        ⟨chunks ++ [joinNL (acc ++ ps)], [], 0⟩ := by
  intro ps
  induction ps with
  | nil => intro chunks acc k hne; exact absurd rfl hne
  | cons p rest ih =>
    intro chunks acc k _ hall hacc hlen hk
    simp only [List.map_cons, List.foldl_cons]
    have hp : isBlank p = false := hall p (List.mem_cons_self _ _)
    have haccp : ∀ t ∈ acc ++ [p], isBlank t = false := by
      intro t ht
      rcases List.mem_append.mp ht with ht | ht
      · exact hacc t ht
      · simp only [List.mem_singleton] at ht
        subst ht
        exact hp
    cases rest with
    | nil =>
      simp only [List.length_cons, List.length_nil] at hk
      have hj : isBlank (joinNL (acc ++ [p])) = false :=
        isBlank_joinNL _ (by simp) haccp
      have hstep : processPage cfg ⟨chunks, acc, k⟩ (some p) =
          ⟨chunks ++ [joinNL (acc ++ [p])], [], 0⟩ := by
        unfold processPage
        rw [if_neg (by dsimp only; omega)]
        dsimp only
        rw [if_pos (show ¬ isBlank p = true by simp [hp])]
        rw [if_pos (by omega : k + 1 ≥ cfg.maxPagesPerPart)]
        rw [if_pos (show ¬ isBlank (joinNL (acc ++ [p])) = true by simp [hj])]
      rw [hstep]
      rfl
    | cons q qs =>
      simp only [List.length_cons] at hk
      have hstep : processPage cfg ⟨chunks, acc, k⟩ (some p) =
          ⟨chunks, acc ++ [p], k + 1⟩ := by
        unfold processPage
        rw [if_neg (by dsimp only; omega)]
        dsimp only
        rw [if_neg (by omega : ¬ k + 1 ≥ cfg.maxPagesPerPart)]
        rw [if_pos (show ¬ isBlank p = true by simp [hp])]
      rw [hstep]
      rw [ih chunks (acc ++ [p]) (k + 1) (by simp) 
        (fun t ht => hall t (List.mem_cons_of_mem _ ht)) haccp hlen
        (by simp only [List.length_cons]; omega)]
      simp [List.append_assoc]

/-- `pageGroups` produces exactly `⌈len / n⌉` groups. -/
lemma pageGroups_length (n : Nat) (hn : 0 < n) :
    ∀ (k : Nat) (l : List String), l.length ≤ k →
      (pageGroups n l).length = (l.length + n - 1) / n := by
  intro k
  induction k with
  | zero =>
    intro l hl
    have : l = [] := List.eq_nil_of_length_eq_zero (by omega)
    subst this
    rw [pageGroups, dif_pos (Or.inl rfl)]
    simp only [List.length_nil]
    rw [Nat.div_eq_of_lt (by omega)]
  | succ k ih =>
    intro l hl
    by_cases hemp : l = []
    · subst hemp
      rw [pageGroups, dif_pos (Or.inl rfl)]
      simp only [List.length_nil]
      rw [Nat.div_eq_of_lt (by omega)]
    · rw [pageGroups, dif_neg (by simp [hemp]; omega)]
      simp only [List.length_cons]
      rw [ih (l.drop n) (by simp [List.length_drop]; omega)]
      rw [List.length_drop]
      have hlen : 1 ≤ l.length := by
        cases l with
        | nil => exact absurd rfl hemp
        | cons a as => simp
      by_cases hle : l.length ≤ n
      · have h1 : l.length - n = 0 := by omega
        rw [h1]
        have h2 : (0 + n - 1) / n = 0 := Nat.div_eq_of_lt (by omega)
        rw [h2]
        have h3 : l.length + n - 1 = (l.length - 1) + n := by omega
        rw [h3, Nat.add_div_right _ hn]
        have h4 : (l.length - 1) / n = 0 := Nat.div_eq_of_lt (by omega)
        omega
      · have h3 : l.length + n - 1 = (l.length - n + n - 1) + n := by omega
        rw [h3, Nat.add_div_right _ hn]

/-- Main loop characterization on all-extractable, all-non-blank pages:
starting from a fresh accumulator, as long as the already-collected
chunks plus the `⌈remaining / maxPagesPerPart⌉` new groups fit under the
cap, the loop (plus trailing flush) appends exactly the joined
sequential page groups. -/
lemma chunk_fold_spec (n m : Nat) (hn : 0 < n) :
    ∀ (k : Nat) (texts chunks : List String),
      texts.length ≤ k →
      (∀ t ∈ texts, isBlank t = false) →
      chunks.length + (texts.length + n - 1) / n ≤ m →
      finishChunks ⟨n, m⟩ ((texts.map some).foldl (processPage ⟨n, m⟩) ⟨chunks, [], 0⟩)
        = chunks ++ (pageGroups n texts).map joinNL := by
  intro k
  induction k with
  | zero =>
    intro texts chunks hk _ _
    have : texts = [] := List.eq_nil_of_length_eq_zero (by omega)
    subst this
    rw [pageGroups, dif_pos (Or.inl rfl)]
    simp [finishChunks]
  | succ k ih =>
    intro texts chunks hk hall hbound
    by_cases hemp : texts = []
    · subst hemp
      rw [pageGroups, dif_pos (Or.inl rfl)]
      simp [finishChunks]
    · have hlen1 : 1 ≤ texts.length := by
        cases texts with
        | nil => exact absurd rfl hemp
        | cons a as => simp
      have hceil1 : 1 ≤ (texts.length + n - 1) / n := by
        rw [Nat.le_div_iff_mul_le hn]
        omega
      have hchunks : chunks.length < m := by omega
      by_cases hlt : texts.length < n
      · -- a single final partial group
        rw [chunk_fold_accum ⟨n, m⟩ texts ⟨chunks, [], 0⟩ hall hchunks
          (by dsimp only; omega)]
        have hj : isBlank (joinNL texts) = false := isBlank_joinNL texts hemp hall
        unfold finishChunks
        rw [if_pos (by dsimp only; exact ⟨hemp, hchunks⟩)]
        dsimp only
        rw [if_pos (by simp [hj])]
        rw [pageGroups, dif_neg (by simp [hemp]; omega)]
        rw [List.take_of_length_le (by omega), List.drop_eq_nil_of_le (by omega)]
        rw [pageGroups, dif_pos (Or.inl rfl)]
        rfl
      · -- a full leading group, then recurse on the rest
        have htake : (texts.take n).length = n := by
          rw [List.length_take]
          omega
        have hgroup : ((texts.take n).map some).foldl (processPage ⟨n, m⟩) ⟨chunks, [], 0⟩
            = ⟨chunks ++ [joinNL (texts.take n)], [], 0⟩ := by
          have := chunk_fold_group ⟨n, m⟩ (texts.take n) chunks [] 0
            (by intro h; rw [h] at htake; simp at htake; omega)
            (fun t ht => hall t (List.mem_of_mem_take ht))
            (by intro t ht; simp at ht)
            hchunks
            (by simp [htake])
          simpa using this
        have hsplit : texts.map some = (texts.take n).map some ++ (texts.drop n).map some := by
          rw [← List.map_append, List.take_append_drop]
        rw [hsplit, List.foldl_append, hgroup]
        have harith : (texts.length + n - 1) / n
            = ((texts.length - n) + n - 1) / n + 1 := by
          have h1 : texts.length + n - 1 = ((texts.length - n) + n - 1) + n := by omega
          rw [h1, Nat.add_div_right _ hn]
        rw [pageGroups, dif_neg (by simp [hemp]; omega)]
        rw [ih (texts.drop n) (chunks ++ [joinNL (texts.take n)])
          (by rw [List.length_drop]; omega)
          (fun t ht => hall t (List.mem_of_mem_drop ht))
          (by
            simp only [List.length_append, List.length_cons, List.length_nil,
              List.length_drop]
            rw [harith] at hbound
            omega)]
        simp [List.append_assoc]

/-- **C5.** For a PDF whose pages all extract to non-blank text, with
`maxPagesPerPart < pages ≤ maxPagesPerPart × maxChunks`, the chunker
produces exactly the sequential non-overlapping page groups — hence
`⌈pages / maxPagesPerPart⌉` chunks — and for any input the number of
chunks never exceeds `maxChunks`. -/
theorem C5_large_pdf_chunking :
    ∀ (n m : Nat) (texts : List String),
      0 < n →
      (∀ t ∈ texts, isBlank t = false) →
      n < texts.length →
      texts.length ≤ n * m →
      extract_large_pdf_chunks ⟨n, m⟩ (some (texts.map some)) texts.length
          = (pageGroups n texts).map joinNL
      ∧ (extract_large_pdf_chunks ⟨n, m⟩ (some (texts.map some)) texts.length).length
          = (texts.length + n - 1) / n
      ∧ (∀ (doc : Option (List (Option String))) (tp : Nat),
          (extract_large_pdf_chunks ⟨n, m⟩ doc tp).length ≤ m) := by
  intro n m texts hn hall hgt hle
  have hceil : (texts.length + n - 1) / n ≤ m := by
    have h2 : texts.length ≤ m * n := by rw [Nat.mul_comm]; exact hle
    have h3 : (m + 1) * n = m * n + n := Nat.succ_mul m n
    have h1 : texts.length + n - 1 < (m + 1) * n := by omega
    have := (Nat.div_lt_iff_lt_mul hn).mpr h1
    omega
  have hmain : extract_large_pdf_chunks ⟨n, m⟩ (some (texts.map some)) texts.length
      = (pageGroups n texts).map joinNL := by
    unfold extract_large_pdf_chunks
    dsimp only
    rw [show (texts.map some).take texts.length = texts.map some from by
      conv_lhs => rw [← List.length_map texts some]
      exact List.take_length _]
    have := chunk_fold_spec n m hn texts.length texts [] (le_refl _) hall
      (by simpa using hceil)
    simpa using this
  refine ⟨hmain, ?_, ?_⟩
  · rw [hmain, List.length_map]
    exact pageGroups_length n hn texts.length texts (le_refl _)
  · intro doc tp
    cases doc with
    | none => simp [extract_large_pdf_chunks]
    | some pages =>
      unfold extract_large_pdf_chunks
      exact finishChunks_le _ _ (fold_chunks_le _ _ _ (by simp))

/-- Witness for C5: 5 pages with chunks of 2 (cap 3) give the three
sequential groups, i.e. ⌈5/2⌉ = 3 chunks. -/
theorem C5_large_pdf_chunking_witness :
    (extract_large_pdf_chunks ⟨2, 3⟩ (some (["a", "b", "c", "d", "e"].map some)) 5
        = (pageGroups 2 ["a", "b", "c", "d", "e"]).map joinNL)
    ∧ (extract_large_pdf_chunks ⟨2, 3⟩ (some (["a", "b", "c", "d", "e"].map some)) 5).length
        = (5 + 2 - 1) / 2
    ∧ (∀ (doc : Option (List (Option String))) (tp : Nat),
        (extract_large_pdf_chunks ⟨2, 3⟩ doc tp).length ≤ 3) := by
  have := C5_large_pdf_chunking 2 3 ["a", "b", "c", "d", "e"] (by decide) (by decide)
    (by decide) (by decide)
  simpa using this
